import Mathlib

set_option maxRecDepth 8192

/-!
# Verification of `obs_decam` calibration-ingest metadata translation

Shallow embedding of `python/lsst/obs/decam/ingestCalibs.py`
(class `DecamCalibsParseTask`) and proofs about it.

Conventions of the embedding:
* FITS header metadata (`lsst.daf.base.PropertySet` as used by the code) is a
  record of optional fields, one per header key the code reads.
* `md.exists(K)` becomes a `match` on the corresponding `Option` field;
  `md.getScalar(K)` on an existing key returns the stored value.
* Python exceptions that escape a method become `Except` errors.
* External collaborators (the base class `CalibsParseTask`, the butler) are
  parameters of the embedded functions.
* Python strings are modelled as Lean `String` / `List Char`; Python's
  `str.lower`, `str.strip`, `str.find`, slicing and `in` are modelled
  character-by-character.  Python's `re` character classes `\d` and `\S`
  are modelled at ASCII granularity (`Char.isDigit`, `isPySpace`), which
  coincides with Python on ASCII data.
-/

namespace ObsDecam

/-- Python whitespace (the characters stripped by `str.strip` and rejected by
the regex class `\S`): space, tab, newline, carriage return, form feed,
vertical tab. -/
def isPySpace (c : Char) : Bool :=
  c = ' ' || c = '\t' || c = '\n' || c = '\r' || c = '\x0c' || c = '\x0b'

/-- Python `needle in hay` on strings: `needle` occurs as a contiguous
substring of `hay`. -/
def containsSub (needle hay : String) : Bool :=
  hay.data.tails.any (fun t => needle.data.isPrefixOf t)

/-- Python `s.lower()` (ASCII case folding). -/
def strLower (s : String) : String :=
  ⟨s.data.map Char.toLower⟩

/-- Python `s.strip()`: remove whitespace from both ends. -/
def pyStrip (s : String) : String :=
  ⟨((s.data.dropWhile isPySpace).reverse.dropWhile isPySpace).reverse⟩

/-- Python `s.find(c)` for a single character: index of the first occurrence,
`-1` if absent. -/
def pyFind (c : Char) : List Char → Int
  | [] => -1
  | a :: t => if a = c then 0 else
      let r := pyFind c t
      if r < 0 then -1 else r + 1

/-! ## `getDestination` (lines 139–173 of `ingestCalibs.py`) -/

/-- The dataId dictionary fields that `getDestination` forces before the
butler template lookup (`info["ccdnum"] = 1`, `info["calib_hdu"] = 1`). -/
structure DataId where
  ccdnum : Int
  calib_hdu : Int
deriving DecidableEq, Repr

/-- Errors that escape `getDestination`: the `assert False` on an invalid
calibration type, and the `IndexError` from `[0]` on an empty butler
result list. -/
inductive DestErr where
  | invalidCalibType
  | indexError
deriving DecidableEq, Repr

/-- The trailing HDU-extension strip of `getDestination`:
`c = raw.find("[")`; `if c > 0: raw = raw[:c]`.
Note the guard is `c > 0`, not `c >= 0`: a path whose first character is `[`
is returned unchanged. -/
def stripHduSuffix (raw : String) : String :=
  let c := pyFind '[' raw.data
  if 0 < c then ⟨raw.data.take c.toNat⟩ else raw

/-- `DecamCalibsParseTask.getDestination`.

`lookup` embeds `butler.get(datasetType, info)` (a list of candidate
filenames); `getCalibType` embeds the base-class call
`self.getCalibType(filename)`.

The bias branch of the source reads `("bias" or "zero") in calibType.lower()`.
In Python the parenthesised expression `("bias" or "zero")` evaluates to the
string `"bias"` (the first truthy operand), so the condition only ever tests
for the substring `"bias"`; the embedding reproduces that. -/
def getDestination (lookup : String → DataId → List String)
    (getCalibType : String → String) (info : DataId) (filename : String) :
    Except DestErr String :=
  let info := { info with ccdnum := 1, calib_hdu := 1 }
  let calibType := getCalibType filename
  let key? : Option String :=
    if containsSub "flat" (strLower calibType) then some "cpFlat_filename"
    else if containsSub "bias" (strLower calibType) then some "cpBias_filename"
    else if containsSub "illumcor" (strLower calibType) then some "cpIllumcor_filename"
    else none
  match key? with
  | none => .error .invalidCalibType
  | some key =>
    match lookup key info with
    | [] => .error .indexError
    | raw :: _ => .ok (stripHduSuffix raw)

/-! ## Metadata model and `_translateFromCalibId` (lines 49–57) -/

/-- The value stored under the `CCDNUM` header key: an integer scalar, or —
through a known defect of some archived MasterCal products that emit the key
twice per HDU — a sequence of integers. -/
inductive CcdVal where
  | scalar (n : Int)
  | seq (l : List Int)
deriving DecidableEq, Repr

/-- The slice of a FITS header (`lsst.daf.base.PropertySet`) read by the
translators: each field is `some v` when `md.exists(KEY)` holds with scalar
value `v`, `none` otherwise. -/
structure Metadata where
  dateObs : Option String
  calibId : Option String
  filter : Option String
  obstype : Option String
  ccdnum : Option CcdVal
deriving DecidableEq, Repr

/-- Exceptions escaping the translators: `getScalar` on a missing key, and
`match.groups()` when `re.search` returned `None`. -/
inductive TrErr where
  | missingKey
  | regexNoMatch
deriving DecidableEq, Repr

/-- One attempt of the regex `F=(\S+)` at the head of `l`: succeeds when `l`
starts with the literal `F` followed by `=` followed by at least one
non-whitespace character, and yields the maximal non-whitespace run after the
`=` (the greedy `\S+` capture). -/
def captureAt (F : List Char) (l : List Char) : Option (List Char) :=
  if (F ++ ['=']).isPrefixOf l then
    let v := (l.drop (F.length + 1)).takeWhile (fun c => !isPySpace c)
    if v.isEmpty then none else some v
  else none

/-- `re.search(".*F=(\S+)", data)` for a literal field name `F` (the three
call sites use `"ccdnum"`, `"calibDate"`, `"filter"`).

Python's `re.search` returns the match starting at the leftmost feasible
position; `.` does not match a newline, so the leading greedy `.*` confines
a match to one line and, by backtracking, picks the last feasible `F=` token
of that line.  Hence: the result is the capture at the *last* token of the
*first* line containing a token.  `scanLine` realises that in one pass:
`acc` holds the latest capture seen on the current line; a newline returns
`acc` when it is set, otherwise scanning continues on the next line. -/
def scanLine (F : List Char) (acc : Option (List Char)) :
    List Char → Option (List Char)
  | [] => acc
  | c :: t =>
    if c = '\n' then
      match acc with
      | some v => some v
      | none => scanLine F none t
    else
      match captureAt F (c :: t) with
      | some v => scanLine F (some v) t
      | none => scanLine F acc t

/-- `DecamCalibsParseTask._translateFromCalibId`: read the `CALIB_ID` header
(raising if absent), search it for `.*F=(\S+)`, and return the capture
(`match.groups()[0]`); a failed search leaves `match = None` and the
attribute access raises. -/
def translateFromCalibId (F : String) (md : Metadata) : Except TrErr String :=
  match md.calibId with
  | none => .error .missingKey
  | some data =>
    match scanLine F.data none data.data with
    | none => .error .regexNoMatch
    | some v => .ok ⟨v⟩

/-- `data` contains a token matching `F=(\S+)`: some suffix of `data` starts
with `F` `=` and a non-whitespace character. -/
def hasToken (F : String) (data : String) : Bool :=
  data.data.tails.any (fun t => (captureAt F.data t).isSome)

/-- Field names the code passes to `_translateFromCalibId` are plain
alphanumeric identifiers; the regex treats them as literals and they cannot
straddle a newline. -/
def goodField (F : String) : Bool :=
  F.data.all (fun c => c.isAlphanum)

/-! ## `translate_ccdnum` (lines 59–78) -/

/-- The value returned by `translate_ccdnum`: the Python method can return an
`int` (scalar or first element of the sequence), `None` (empty sequence), or
the `str` captured from `CALIB_ID` by `_translateFromCalibId`. -/
inductive CcdOut where
  | intVal (n : Int)
  | noneVal
  | strVal (s : String)
deriving DecidableEq, Repr

/-- `DecamCalibsParseTask.translate_ccdnum`.  Note the fallback branch
returns the regex capture unconverted — a `str`, although the docstring
promises "Return CCDNUM as a integer". -/
def translate_ccdnum (md : Metadata) : Except TrErr CcdOut :=
  match md.ccdnum with
  | some (.scalar n) => .ok (.intVal n)
  | some (.seq []) => .ok .noneVal
  | some (.seq (x :: _)) => .ok (.intVal x)
  | none => (translateFromCalibId "ccdnum" md).map .strVal

/-! ## `translate_date` (lines 80–101) -/

/-- Head test of the regex `(\d\d\d\d-\d\d-\d\d)`: the first ten characters
are four digits, a dash, two digits, a dash, two digits. -/
def dateShape (l : List Char) : Bool :=
  match l with
  | a :: b :: c :: d :: e :: f :: g :: h :: i :: j :: _ =>
    a.isDigit && b.isDigit && c.isDigit && d.isDigit && e = '-' &&
    f.isDigit && g.isDigit && h = '-' && i.isDigit && j.isDigit
  | _ => false

/-- `re.search(r'(\d\d\d\d-\d\d-\d\d)', s)`: the leftmost ten-character
substring of date shape, if any. -/
def searchDate : List Char → Option (List Char)
  | [] => none
  | c :: t => if dateShape (c :: t) then some ((c :: t).take 10) else searchDate t

/-- `searchDate` on a `String`, as applied to header values and filenames. -/
def searchDateStr (s : String) : Option String :=
  (searchDate s.data).map (fun l => ⟨l⟩)

/-- `DecamCalibsParseTask.translate_date`.  The second component collects the
log: the branch where `DATE-OBS` exists but has no date-shaped substring
emits `self.log.warn(...)`. -/
def translate_date (md : Metadata) : Except TrErr String × List String :=
  match md.dateObs with
  | some d =>
    match searchDateStr d with
    | some v => (.ok v, [])
    | none => (.ok "unknown", ["DATE-OBS does not match format YYYY-MM-DD"])
  | none =>
    match md.calibId with
    | some _ => (translateFromCalibId "calibDate" md, [])
    | none => (.ok "unknown", [])

/-! ## `translate_filter` (lines 103–122) -/

/-- `DecamCalibsParseTask.translate_filter`.  `base` embeds the inherited
`CalibsParseTask.translate_filter` (defined outside this repository). -/
def translate_filter (base : Metadata → String) (md : Metadata) :
    Except TrErr String :=
  match md.filter with
  | some _ =>
    match md.obstype with
    | some o =>
      if containsSub "zero" (strLower (pyStrip o)) then .ok "NONE"
      else .ok (base md)
    | none => .ok (base md)
  | none =>
    match md.calibId with
    | some _ => translateFromCalibId "filter" md
    | none => .ok "unknown"

/-! ## `getInfo` (lines 11–47) -/

/-- One per-extension info record as handled by `getInfo`: the dictionary
keys the method reads or writes (`hdu`, `calibDate`, `path`, `calib_hdu`),
plus an opaque payload `other` for the keys it leaves untouched. -/
structure FileInfo where
  hdu : Option Int
  calibDate : Option String
  path : Option String
  calib_hdu : Option Int
  other : List (String × String)
deriving DecidableEq, Repr

/-- Loop body `info['path'] = filename`. -/
def setPath (filename : String) (r : FileInfo) : FileInfo :=
  { r with path := some filename }

/-- Loop body `item['calib_hdu'] = item['hdu']` with the `KeyError`
fallback to `1` (pre-DM-19730 defect ingestion). -/
def setCalibHdu (r : FileInfo) : FileInfo :=
  match r.hdu with
  | some h => { r with calib_hdu := some h }
  | none => { r with calib_hdu := some 1 }

/-- Filename-date fallback loop body: when a date was found in the filename
and the record's `calibDate` is absent or `"unknown"`, set it. -/
def setDate (found : Option String) (r : FileInfo) : FileInfo :=
  match found with
  | none => r
  | some d =>
    if r.calibDate = none ∨ r.calibDate = some "unknown" then
      { r with calibDate := some d }
    else r

/-- The composite per-record mutation `getInfo` performs on every entry of
`infoList` (set `path`, set `calib_hdu`, then the filename-date fallback). -/
def processInfo (filename : String) (found : Option String) (r : FileInfo) :
    FileInfo :=
  setDate found (setCalibHdu (setPath filename r))

/-- `DecamCalibsParseTask.getInfo`.  `base` embeds the inherited
`CalibsParseTask.getInfo`, which returns the primary-header record and the
per-extension records.  When the extension list is empty the primary record
itself is appended (`infoList.append(phuInfo)`), so the subsequent in-place
mutations also show on the returned primary record — the embedding applies
`processInfo` to the returned primary record exactly in that case. -/
def getInfo (base : String → FileInfo × List FileInfo) (filename : String) :
    FileInfo × List FileInfo :=
  let p := base filename
  let lst0 := if p.2.isEmpty then [p.1] else p.2
  let found := searchDateStr filename
  let lst := lst0.map (processInfo filename found)
  let phu := if p.2.isEmpty then processInfo filename found p.1 else p.1
  (phu, lst)

/-! ## Concrete sample inputs used by witnesses -/

/-- A header carrying only a packed `CALIB_ID`, as found on
`constructCalibs` products. -/
def mdCalibOnly : Metadata :=
  { dateObs := none, calibId := some "flat g ccdnum=12 calibDate=2019-01-01",
    filter := none, obstype := none, ccdnum := none }

/-- A header with a parseable `DATE-OBS`. -/
def mdDateOk : Metadata :=
  { dateObs := some "2020-05-13T00:00:00", calibId := none,
    filter := none, obstype := none, ccdnum := none }

/-- A header whose `DATE-OBS` has no date-shaped substring. -/
def mdDateBad : Metadata :=
  { dateObs := some "garbage", calibId := none,
    filter := none, obstype := none, ccdnum := none }

/-- A header with none of the fields the translators read. -/
def mdEmpty : Metadata :=
  { dateObs := none, calibId := none,
    filter := none, obstype := none, ccdnum := none }

/-- A zero frame: `OBSTYPE` contains `zero` (after trim / case fold) even
though `FILTER` is `g`. -/
def mdZeroFrame : Metadata :=
  { dateObs := none, calibId := none,
    filter := some "g", obstype := some " Zero ", ccdnum := none }

/-- No `FILTER`, but a packed `CALIB_ID` holding `filter=z`. -/
def mdFilterFromCalibId : Metadata :=
  { dateObs := none, calibId := some "a filter=z b",
    filter := none, obstype := none, ccdnum := none }

/-- A `CALIB_ID` in which `ccdnum=` occurs twice, with different values. -/
def mdDoubleCcdnum : Metadata :=
  { dateObs := none, calibId := some "ccdnum=1 ccdnum=2",
    filter := none, obstype := none, ccdnum := none }

/-- A base `getInfo` collaborator returning one primary record, no
extension records, and a header-derived date. -/
def sampleBase : String → FileInfo × List FileInfo :=
  fun _ => (⟨some 3, some "2011-02-03", none, none, []⟩, [])

/-! ## Helper lemmas -/

theorem pyFind_eq_neg_one (c : Char) (l : List Char) (h : ∀ a ∈ l, a ≠ c) :
    pyFind c l = -1 := by
  induction l with
  | nil => rfl
  | cons a t ih =>
    have ha : a ≠ c := h a (List.mem_cons_self a t)
    have ht : pyFind c t = -1 := ih (fun x hx => h x (List.mem_cons_of_mem a hx))
    simp [pyFind, ha, ht]

theorem pyFind_eq_of_first (c : Char) (l : List Char) (i : Nat)
    (hi : l.get? i = some c) (hmin : ∀ j < i, l.get? j ≠ some c) :
    pyFind c l = (i : Int) := by
  induction l generalizing i with
  | nil => simp at hi
  | cons a t ih =>
    cases i with
    | zero =>
      simp only [List.get?] at hi
      have : a = c := by injection hi
      simp [pyFind, this]
    | succ n =>
      have ha : a ≠ c := by
        intro hac
        exact hmin 0 (Nat.succ_pos n) (by simp [hac])
      have ht : pyFind c t = (n : Int) := by
        apply ih n
        · simpa using hi
        · intro j hj
          have := hmin (j + 1) (Nat.succ_lt_succ hj)
          simpa using this
      have hnn : ¬ ((n : Int) < 0) := by omega
      simp [pyFind, ha, ht, hnn]

theorem searchDate_of_first (l : List Char) (i : Nat)
    (hi : dateShape (l.drop i) = true)
    (hmin : ∀ j < i, dateShape (l.drop j) = false) :
    searchDate l = some ((l.drop i).take 10) := by
  induction i generalizing l with
  | zero =>
    cases l with
    | nil => simp [dateShape] at hi
    | cons c t =>
      simp only [List.drop_zero] at hi ⊢
      simp [searchDate, hi]
  | succ n ih =>
    cases l with
    | nil => simp [dateShape] at hi
    | cons c t =>
      have h0 : dateShape (c :: t) = false := by
        simpa using hmin 0 (Nat.succ_pos n)
      have hrec : searchDate (c :: t) = searchDate t := by
        simp [searchDate, h0]
      rw [hrec]
      have hi' : dateShape (t.drop n) = true := by simpa using hi
      have hmin' : ∀ j < n, dateShape (t.drop j) = false := by
        intro j hj
        simpa using hmin (j + 1) (Nat.succ_lt_succ hj)
      simpa using ih t hi' hmin'

theorem searchDate_eq_none (l : List Char)
    (h : ∀ t ∈ l.tails, dateShape t = false) : searchDate l = none := by
  induction l with
  | nil => rfl
  | cons c t ih =>
    have h0 : dateShape (c :: t) = false := by
      apply h
      exact (List.mem_tails _ _).mpr (List.suffix_refl _)
    have ht : searchDate t = none := by
      apply ih
      intro s hs
      apply h
      rw [List.mem_tails] at hs ⊢
      exact hs.trans (List.suffix_cons c t)
    simp [searchDate, h0, ht]

theorem processInfo_path (filename : String) (found : Option String)
    (r : FileInfo) : (processInfo filename found r).path = some filename := by
  unfold processInfo setDate setCalibHdu setPath
  cases found with
  | none => cases r.hdu <;> rfl
  | some d => cases r.hdu <;> (dsimp only; split <;> rfl)

theorem processInfo_calibDate (filename : String) (d : String)
    (r : FileInfo) : (processInfo filename (some d) r).calibDate =
      if r.calibDate = none ∨ r.calibDate = some "unknown" then some d
      else r.calibDate := by
  unfold processInfo setDate setCalibHdu setPath
  cases r.hdu <;> (dsimp only; split <;> rfl)

theorem captureAt_nil (F : List Char) : captureAt F [] = none := by
  cases F <;> rfl

theorem captureAt_newline (F : List Char) (t : List Char)
    (hF : ∀ c ∈ F, c ≠ '\n') : captureAt F ('\n' :: t) = none := by
  cases F with
  | nil => rfl
  | cons c F' =>
    have hc : c ≠ '\n' := hF c (List.mem_cons_self c F')
    simp [captureAt, List.cons_append, List.isPrefixOf, hc]

theorem scanLine_isSome_acc (F : List Char) (v : List Char) (l : List Char) :
    (scanLine F (some v) l).isSome := by
  induction l generalizing v with
  | nil => simp [scanLine]
  | cons c t ih =>
    by_cases hc : c = '\n'
    · subst hc
      simp [scanLine]
    · cases hcap : captureAt F (c :: t) with
      | none => simpa [scanLine, hc, hcap] using ih v
      | some w => simpa [scanLine, hc, hcap] using ih w

theorem scanLine_eq_some (F : List Char) (l : List Char)
    (acc : Option (List Char)) (v : List Char)
    (h : scanLine F acc l = some v) :
    acc = some v ∨ ∃ t ∈ l.tails, captureAt F t = some v := by
  induction l generalizing acc with
  | nil =>
    simp only [scanLine] at h
    exact Or.inl h
  | cons c t ih =>
    by_cases hc : c = '\n'
    · subst hc
      cases acc with
      | some w =>
        simp only [scanLine, if_pos rfl] at h
        exact Or.inl h
      | none =>
        simp only [scanLine, if_pos rfl] at h
        rcases ih none h with h' | ⟨s, hs, hcap⟩
        · exact absurd h' (by simp)
        · exact Or.inr ⟨s, by simp [List.tails_cons, hs], hcap⟩
    · cases hcap : captureAt F (c :: t) with
      | none =>
        simp only [scanLine, if_neg hc, hcap] at h
        rcases ih acc h with h' | ⟨s, hs, hcap'⟩
        · exact Or.inl h'
        · exact Or.inr ⟨s, by simp [List.tails_cons, hs], hcap'⟩
      | some w =>
        simp only [scanLine, if_neg hc, hcap] at h
        rcases ih (some w) h with h' | ⟨s, hs, hcap'⟩
        · refine Or.inr ⟨c :: t, by simp [List.tails_cons], ?_⟩
          rw [hcap]
          exact h'
        · exact Or.inr ⟨s, by simp [List.tails_cons, hs], hcap'⟩

theorem scanLine_isSome_of_capture (F : List Char) (l : List Char)
    (hF : ∀ c ∈ F, c ≠ '\n')
    (h : ∃ t ∈ l.tails, (captureAt F t).isSome) (acc : Option (List Char)) :
    (scanLine F acc l).isSome := by
  induction l generalizing acc with
  | nil =>
    obtain ⟨s, hs, hcap⟩ := h
    simp only [List.tails] at hs
    have : s = ([] : List Char) := by simpa using hs
    rw [this, captureAt_nil] at hcap
    simp at hcap
  | cons c t ih =>
    obtain ⟨s, hs, hcap⟩ := h
    rw [List.tails_cons, List.mem_cons] at hs
    by_cases hc : c = '\n'
    · subst hc
      rcases hs with hs | hs
      · rw [hs, captureAt_newline F t hF] at hcap
        simp at hcap
      · cases acc with
        | some w => simp [scanLine]
        | none =>
          simp only [scanLine, if_pos rfl]
          exact ih ⟨s, hs, hcap⟩ none
    · cases hcap2 : captureAt F (c :: t) with
      | some w =>
        simp only [scanLine, if_neg hc, hcap2]
        exact scanLine_isSome_acc F w t
      | none =>
        rcases hs with hs | hs
        · rw [hs, hcap2] at hcap
          simp at hcap
        · simp only [scanLine, if_neg hc, hcap2]
          exact ih ⟨s, hs, hcap⟩ acc

theorem scanLine_acc_irrel (F : List Char) (l : List Char)
    (hnl : '\n' ∉ l)
    (hcap : ∃ t ∈ l.tails, (captureAt F t).isSome)
    (acc acc' : Option (List Char)) :
    scanLine F acc l = scanLine F acc' l := by
  induction l generalizing acc acc' with
  | nil =>
    obtain ⟨s, hs, h⟩ := hcap
    have : s = ([] : List Char) := by simpa using hs
    rw [this, captureAt_nil] at h
    simp at h
  | cons c t ih =>
    have hc : c ≠ '\n' := fun h => hnl (h ▸ List.mem_cons_self c t)
    have hnt : '\n' ∉ t := fun h => hnl (List.mem_cons_of_mem c h)
    cases h2 : captureAt F (c :: t) with
    | some w => simp only [scanLine, if_neg (fun h => hc h), h2]
    | none =>
      obtain ⟨s, hs, h⟩ := hcap
      rw [List.tails_cons, List.mem_cons] at hs
      rcases hs with hs | hs
      · rw [hs, h2] at h
        simp at h
      · simp only [scanLine, if_neg (fun h => hc h), h2]
        exact ih hnt ⟨s, hs, h⟩ acc acc'

theorem scanLine_append_eq (F : List Char) (d₁ d₂ : List Char)
    (hnl₁ : '\n' ∉ d₁) (hnl₂ : '\n' ∉ d₂)
    (hcap : ∃ t ∈ d₂.tails, (captureAt F t).isSome) (acc : Option (List Char)) :
    scanLine F acc (d₁ ++ d₂) = scanLine F none d₂ := by
  induction d₁ generalizing acc with
  | nil =>
    simpa using scanLine_acc_irrel F d₂ hnl₂ hcap acc none
  | cons c t ih =>
    have hc : c ≠ '\n' := fun h => hnl₁ (h ▸ List.mem_cons_self c t)
    have hnt : '\n' ∉ t := fun h => hnl₁ (List.mem_cons_of_mem c h)
    rw [List.cons_append]
    cases h2 : captureAt F (c :: (t ++ d₂)) with
    | some w =>
      simp only [scanLine, if_neg (fun h => hc h), h2]
      exact ih hnt (some w)
    | none =>
      simp only [scanLine, if_neg (fun h => hc h), h2]
      exact ih hnt acc

/-! ## Claims -/

/-- C1: the claim (and the spec) say a calibration kind whose lower-cased
form contains `zero` selects the bias-file template; in the source the bias
branch reads `("bias" or "zero") in calibType.lower()`, and the Python
expression `("bias" or "zero")` evaluates to `"bias"`, so only `"bias"` is
ever tested.  The kind `"zero"` therefore matches no branch and hits the
fatal assertion, while `"bias"` resolves to the bias template's first
candidate as documented. -/
theorem C1_zero_hits_assertion :
    getDestination (fun _ _ => ["/archive/cpBias/file.fits"]) (fun s => s)
      ⟨0, 0⟩ "zero" = .error .invalidCalibType ∧
    getDestination (fun _ _ => ["/archive/cpBias/file.fits"]) (fun s => s)
      ⟨0, 0⟩ "bias" = .ok "/archive/cpBias/file.fits" :=
  ⟨rfl, rfl⟩

/-- C2: if the lower-cased calibration kind contains none of `flat`,
`bias`, `zero`, `illumcor`, `getDestination` hits the `assert False` branch
and returns no destination path. -/
theorem C2_invalid_kind_is_fatal (lookup : String → DataId → List String)
    (getCalibType : String → String) (info : DataId) (filename : String)
    (h1 : containsSub "flat" (strLower (getCalibType filename)) = false)
    (h2 : containsSub "bias" (strLower (getCalibType filename)) = false)
    (_h3 : containsSub "zero" (strLower (getCalibType filename)) = false)
    (h4 : containsSub "illumcor" (strLower (getCalibType filename)) = false) :
    getDestination lookup getCalibType info filename
      = .error .invalidCalibType := by
  simp [getDestination, h1, h2, h4]

/-- C2 witness: the kind `"bar"` is fatal. -/
theorem C2_witness :
    getDestination (fun _ _ => ["/x"]) (fun s => s) ⟨0, 0⟩ "bar"
      = .error .invalidCalibType :=
  C2_invalid_kind_is_fatal _ _ _ _ (by decide) (by decide) (by decide)
    (by decide)

/-- C5: evaluation of `translate_ccdnum` at the claim's inputs.  A scalar
`CCDNUM` is returned as-is, `[7]` yields `7`, `[]` yields `None`; but with
`CCDNUM` absent and `CALIB_ID` containing `ccdnum=12` the method returns the
regex capture — the *string* `"12"`, not the integer `12` promised by its
docstring ("Return CCDNUM as a integer"). -/
theorem C5_ccdnum_eval :
    translate_ccdnum { mdEmpty with ccdnum := some (.scalar 3) }
      = .ok (.intVal 3) ∧
    translate_ccdnum { mdEmpty with ccdnum := some (.seq [7]) }
      = .ok (.intVal 7) ∧
    translate_ccdnum { mdEmpty with ccdnum := some (.seq []) }
      = .ok .noneVal ∧
    translate_ccdnum mdCalibOnly = .ok (.strVal "12") ∧
    CcdOut.strVal "12" ≠ CcdOut.intVal 12 :=
  ⟨rfl, rfl, rfl, rfl, by decide⟩

/-- C8 counterexample: the claim says every looked-up path containing `[`
is truncated at that character.  The source guard is `c > 0`
(not `c >= 0`), so a path whose *first* character is `[` is returned
unchanged: for the looked-up path `"[1]"` the claim demands the empty
prefix, but the code returns `"[1]"`. -/
theorem C8_counterexample :
    getDestination (fun _ _ => ["[1]"]) (fun s => s) ⟨0, 0⟩ "flat"
      = .ok "[1]" ∧ ("[1]" : String) ≠ "" :=
  ⟨rfl, by decide⟩

/-- C8 (amended): if the looked-up path contains `[` first at a positive
index `i`, the destination is the prefix of the path before that `[`; if the
path has no `[`, or its first character is `[` (index `0`), it is returned
unchanged; and `getDestination` returns exactly `stripHduSuffix` of the
first candidate path. -/
theorem C8_strip_amended (raw : String) :
    ((∀ a ∈ raw.data, a ≠ '[') → stripHduSuffix raw = raw) ∧
    (∀ i : Nat, raw.data.get? i = some '[' →
      (∀ j < i, raw.data.get? j ≠ some '[') →
      stripHduSuffix raw = if i = 0 then raw else ⟨raw.data.take i⟩) ∧
    (∀ (lookup : String → DataId → List String) (getCalibType : String → String)
      (info : DataId) (filename : String) (rest : List String),
      containsSub "flat" (strLower (getCalibType filename)) = true →
      lookup "cpFlat_filename" ⟨1, 1⟩ = raw :: rest →
      getDestination lookup getCalibType info filename
        = .ok (stripHduSuffix raw)) := by
  refine ⟨?_, ?_, ?_⟩
  · intro h
    unfold stripHduSuffix
    rw [pyFind_eq_neg_one '[' raw.data h]
    simp
  · intro i hi hmin
    unfold stripHduSuffix
    rw [pyFind_eq_of_first '[' raw.data i hi hmin]
    cases i with
    | zero => simp
    | succ n => simp
  · intro lookup getCalibType info filename rest hflat hlk
    simp [getDestination, hflat, hlk]

/-- C8 witness: `"/archive/cpFlat/file.fits[1]"` (first `[` at index 25)
resolves to `"/archive/cpFlat/file.fits"`, through `getDestination`. -/
theorem C8_witness :
    stripHduSuffix "/archive/cpFlat/file.fits[1]"
      = "/archive/cpFlat/file.fits" ∧
    getDestination (fun _ _ => ["/archive/cpFlat/file.fits[1]"]) (fun s => s)
      ⟨0, 0⟩ "flat"
      = .ok (stripHduSuffix "/archive/cpFlat/file.fits[1]") := by
  constructor
  · have h := (C8_strip_amended "/archive/cpFlat/file.fits[1]").2.1 25
      (by decide) (by decide)
    rw [h]
    rfl
  · exact (C8_strip_amended "/archive/cpFlat/file.fits[1]").2.2 _ _ ⟨0, 0⟩
      "flat" [] (by decide) rfl

/-- C3: `translate_date` returns the first date-shaped substring of
`DATE-OBS` when one exists; the sentinel `"unknown"` plus a logged warning
when `DATE-OBS` exists without one; the `CALIB_ID` extraction when
`DATE-OBS` is absent but `CALIB_ID` exists; and `"unknown"` when neither
exists. -/
theorem C3_translate_date (md : Metadata) :
    (∀ (d : String) (i : Nat), md.dateObs = some d →
      dateShape (d.data.drop i) = true →
      (∀ j < i, dateShape (d.data.drop j) = false) →
      translate_date md = (.ok ⟨(d.data.drop i).take 10⟩, [])) ∧
    (∀ d : String, md.dateObs = some d →
      (∀ t ∈ d.data.tails, dateShape t = false) →
      translate_date md =
        (.ok "unknown", ["DATE-OBS does not match format YYYY-MM-DD"])) ∧
    (∀ data : String, md.dateObs = none → md.calibId = some data →
      translate_date md = (translateFromCalibId "calibDate" md, [])) ∧
    (md.dateObs = none → md.calibId = none →
      translate_date md = (.ok "unknown", [])) := by
  refine ⟨?_, ?_, ?_, ?_⟩
  · intro d i hd hi hmin
    have hs : searchDateStr d = some ⟨(d.data.drop i).take 10⟩ := by
      unfold searchDateStr
      rw [searchDate_of_first d.data i hi hmin]
      rfl
    simp [translate_date, hd, hs]
  · intro d hd hnone
    have hs : searchDateStr d = none := by
      unfold searchDateStr
      rw [searchDate_eq_none d.data hnone]
      rfl
    simp [translate_date, hd, hs]
  · intro data h1 h2
    simp [translate_date, h1, h2]
  · intro h1 h2
    simp [translate_date, h1, h2]

/-- C3 witness: `DATE-OBS="2020-05-13T00:00:00"` yields `"2020-05-13"`;
`DATE-OBS="garbage"` yields `"unknown"` with the warning; no `DATE-OBS` but
`CALIB_ID` containing `calibDate=2019-01-01` yields `"2019-01-01"`; neither
yields `"unknown"`. -/
theorem C3_witness :
    translate_date mdDateOk = (.ok "2020-05-13", []) ∧
    translate_date mdDateBad =
      (.ok "unknown", ["DATE-OBS does not match format YYYY-MM-DD"]) ∧
    (translate_date mdCalibOnly).1 = .ok "2019-01-01" ∧
    translate_date mdEmpty = (.ok "unknown", []) := by
  refine ⟨?_, ?_, ?_, ?_⟩
  · exact (C3_translate_date mdDateOk).1 "2020-05-13T00:00:00" 0 rfl
      (by decide) (by decide)
  · exact (C3_translate_date mdDateBad).2.1 "garbage" rfl (by decide)
  · rw [(C3_translate_date mdCalibOnly).2.2.1
      "flat g ccdnum=12 calibDate=2019-01-01" rfl rfl]
    rfl
  · exact (C3_translate_date mdEmpty).2.2.2 rfl rfl

/-- C4: `translate_filter` forces `"NONE"` whenever `FILTER` exists and
`OBSTYPE` exists with `zero` in its trimmed lower-cased value, regardless of
the `FILTER` value; otherwise with `FILTER` present it delegates to the base
translator; with `FILTER` absent it extracts from `CALIB_ID` when that
exists, and returns `"unknown"` when neither exists. -/
theorem C4_translate_filter (base : Metadata → String) (md : Metadata) :
    (∀ (f o : String), md.filter = some f → md.obstype = some o →
      containsSub "zero" (strLower (pyStrip o)) = true →
      translate_filter base md = .ok "NONE") ∧
    (∀ f : String, md.filter = some f → md.obstype = none →
      translate_filter base md = .ok (base md)) ∧
    (∀ (f o : String), md.filter = some f → md.obstype = some o →
      containsSub "zero" (strLower (pyStrip o)) = false →
      translate_filter base md = .ok (base md)) ∧
    (∀ data : String, md.filter = none → md.calibId = some data →
      translate_filter base md = translateFromCalibId "filter" md) ∧
    (md.filter = none → md.calibId = none →
      translate_filter base md = .ok "unknown") := by
  refine ⟨?_, ?_, ?_, ?_, ?_⟩
  · intro f o h1 h2 h3
    simp [translate_filter, h1, h2, h3]
  · intro f h1 h2
    simp [translate_filter, h1, h2]
  · intro f o h1 h2 h3
    simp [translate_filter, h1, h2, h3]
  · intro data h1 h2
    simp [translate_filter, h1, h2]
  · intro h1 h2
    simp [translate_filter, h1, h2]

/-- C4 witness: `OBSTYPE=" Zero "`, `FILTER="g"` yields `"NONE"`; no
`FILTER` with `CALIB_ID` containing `filter=z` yields `"z"`; neither
present yields `"unknown"`; a plain `FILTER` delegates to the base
translator. -/
theorem C4_witness :
    translate_filter (fun _ => "g-base") mdZeroFrame = .ok "NONE" ∧
    translate_filter (fun _ => "g-base") mdFilterFromCalibId = .ok "z" ∧
    translate_filter (fun _ => "g-base") mdEmpty = .ok "unknown" ∧
    translate_filter (fun _ => "g-base")
      { mdEmpty with filter := some "g" } = .ok "g-base" := by
  refine ⟨?_, ?_, ?_, ?_⟩
  · exact (C4_translate_filter _ mdZeroFrame).1 "g" " Zero " rfl rfl (by decide)
  · rw [(C4_translate_filter (fun _ => "g-base") mdFilterFromCalibId).2.2.2.1
      "a filter=z b" rfl rfl]
    rfl
  · exact (C4_translate_filter _ mdEmpty).2.2.2.2 rfl rfl
  · exact (C4_translate_filter _ _).2.1 "g" rfl rfl

/-- C6: in `getInfo`'s filename-date fallback, when the filename contains a
date-shaped substring, a record whose `calibDate` is absent or `"unknown"`
gets that substring, and a record that already carries another date is left
unchanged; the records `getInfo` returns are exactly the `processInfo`
images of the incoming records. -/
theorem C6_filename_date_fallback (filename : String) (r : FileInfo)
    (d : String) (hf : searchDateStr filename = some d) :
    ((r.calibDate = none ∨ r.calibDate = some "unknown") →
      (processInfo filename (searchDateStr filename) r).calibDate = some d) ∧
    (r.calibDate ≠ none → r.calibDate ≠ some "unknown" →
      (processInfo filename (searchDateStr filename) r).calibDate
        = r.calibDate) ∧
    (∀ base : String → FileInfo × List FileInfo,
      (getInfo base filename).2 =
        ((if (base filename).2.isEmpty then [(base filename).1]
          else (base filename).2).map
            (processInfo filename (searchDateStr filename)))) := by
  refine ⟨?_, ?_, fun base => rfl⟩
  · intro h
    rw [hf, processInfo_calibDate, if_pos h]
  · intro h1 h2
    rw [hf, processInfo_calibDate, if_neg (not_or.mpr ⟨h1, h2⟩)]

/-- C6 witness: filename `"bias-2020-01-01.fits"`: a record with
`calibDate = "unknown"` becomes `"2020-01-01"`, a record with
`calibDate = "2011-02-03"` keeps it. -/
theorem C6_witness :
    (processInfo "bias-2020-01-01.fits" (searchDateStr "bias-2020-01-01.fits")
      ⟨some 3, some "unknown", none, none, []⟩).calibDate
        = some "2020-01-01" ∧
    (processInfo "bias-2020-01-01.fits" (searchDateStr "bias-2020-01-01.fits")
      ⟨some 3, some "2011-02-03", none, none, []⟩).calibDate
        = some "2011-02-03" := by
  constructor
  · exact (C6_filename_date_fallback "bias-2020-01-01.fits"
      ⟨some 3, some "unknown", none, none, []⟩ "2020-01-01" rfl).1
      (Or.inr rfl)
  · exact (C6_filename_date_fallback "bias-2020-01-01.fits"
      ⟨some 3, some "2011-02-03", none, none, []⟩ "2020-01-01" rfl).2.1
      (by decide) (by decide)

/-- C7: every record returned by `getInfo` carries `path = filename`, and
when the underlying extension list is empty the returned list is exactly the
(returned) primary record alone. -/
theorem C7_paths_and_single_record (base : String → FileInfo × List FileInfo)
    (filename : String) :
    (∀ r ∈ (getInfo base filename).2, r.path = some filename) ∧
    ((base filename).2 = [] →
      (getInfo base filename).2 = [(getInfo base filename).1]) := by
  constructor
  · intro r hr
    have hr' : r ∈ (if (base filename).2.isEmpty then [(base filename).1]
        else (base filename).2).map
          (processInfo filename (searchDateStr filename)) := hr
    rw [List.mem_map] at hr'
    obtain ⟨r0, _, hr0⟩ := hr'
    rw [← hr0]
    exact processInfo_path filename _ r0
  · intro h
    simp [getInfo, h]

/-- C7 witness: a base reader with one primary record and an empty extension
list. -/
theorem C7_witness :
    (∀ r ∈ (getInfo sampleBase "bias-2020-01-01.fits").2,
      r.path = some "bias-2020-01-01.fits") ∧
    (getInfo sampleBase "bias-2020-01-01.fits").2
      = [(getInfo sampleBase "bias-2020-01-01.fits").1] :=
  ⟨(C7_paths_and_single_record sampleBase "bias-2020-01-01.fits").1,
   (C7_paths_and_single_record sampleBase "bias-2020-01-01.fits").2 rfl⟩

/-- C9: for any (newline-free) field name `F`, `_translateFromCalibId`
returns a captured non-whitespace run when `CALIB_ID` contains a token
matching `F=(\S+)`, raises (regex `None`, attribute error) when no such
token is present, and raises a key lookup error when `CALIB_ID` itself is
absent — the caller must check existence first. -/
theorem C9_calibid_extraction (F : String) (md : Metadata)
    (hF : ∀ c ∈ F.data, c ≠ '\n') :
    (∀ data : String, md.calibId = some data →
      (hasToken F data = true →
        ∃ v : String, translateFromCalibId F md = .ok v ∧
          ∃ t ∈ data.data.tails, captureAt F.data t = some v.data) ∧
      (hasToken F data = false →
        translateFromCalibId F md = .error .regexNoMatch)) ∧
    (md.calibId = none → translateFromCalibId F md = .error .missingKey) := by
  constructor
  · intro data hdata
    constructor
    · intro htok
      have hcap : ∃ t ∈ data.data.tails, (captureAt F.data t).isSome := by
        unfold hasToken at htok
        rw [List.any_eq_true] at htok
        exact htok
      have hsome := scanLine_isSome_of_capture F.data data.data hF hcap none
      obtain ⟨v, hv⟩ := Option.isSome_iff_exists.mp hsome
      refine ⟨⟨v⟩, ?_, ?_⟩
      · simp only [translateFromCalibId, hdata, hv]
      · rcases scanLine_eq_some F.data data.data none v hv with h' | h'
        · exact absurd h' (by simp)
        · exact h'
    · intro htok
      cases hv : scanLine F.data none data.data with
      | none =>
        simp only [translateFromCalibId, hdata, hv]
      | some v =>
        exfalso
        rcases scanLine_eq_some F.data data.data none v hv with h' | ⟨t, ht, h'⟩
        · simp at h'
        · have hT : hasToken F data = true := by
            unfold hasToken
            rw [List.any_eq_true]
            exact ⟨t, ht, by simp [h']⟩
          rw [hT] at htok
          exact Bool.noConfusion htok
  · intro h
    unfold translateFromCalibId
    rw [h]

/-- C9 witness: `ccdnum` is extracted from a `CALIB_ID` containing it; a
field with no token raises the regex error; a missing `CALIB_ID` raises the
lookup error. -/
theorem C9_witness :
    (∃ v : String, translateFromCalibId "ccdnum" mdCalibOnly = .ok v ∧
      ∃ t ∈ ("flat g ccdnum=12 calibDate=2019-01-01" : String).data.tails,
        captureAt "ccdnum".data t = some v.data) ∧
    translateFromCalibId "ccdnum" mdFilterFromCalibId
      = .error .regexNoMatch ∧
    translateFromCalibId "calibDate" mdEmpty = .error .missingKey := by
  refine ⟨?_, ?_, ?_⟩
  · exact ((C9_calibid_extraction "ccdnum" mdCalibOnly (by decide)).1
      "flat g ccdnum=12 calibDate=2019-01-01" rfl).1 (by decide)
  · exact ((C9_calibid_extraction "ccdnum" mdFilterFromCalibId (by decide)).1
      "a filter=z b" rfl).2 (by decide)
  · exact (C9_calibid_extraction "calibDate" mdEmpty (by decide)).2 rfl

/-- C10: the regex pattern is prefixed by a greedy `.*`, so when the
`CALIB_ID` value contains the token `F=` both in an earlier part `d₁` and in
a later part `d₂`, the returned capture is the one determined by the later
part (the rightmost occurrence), independent of the earlier one. -/
theorem C10_last_occurrence_wins (F : String) (d₁ d₂ v : List Char)
    (md : Metadata)
    (hnl₁ : '\n' ∉ d₁) (hnl₂ : '\n' ∉ d₂)
    (_hfirst : ∃ t ∈ d₁.tails, (captureAt F.data t).isSome)
    (hlast : scanLine F.data none d₂ = some v)
    (hmd : md.calibId = some ⟨d₁ ++ d₂⟩) :
    translateFromCalibId F md = .ok ⟨v⟩ := by
  have hcap : ∃ t ∈ d₂.tails, (captureAt F.data t).isSome := by
    rcases scanLine_eq_some F.data d₂ none v hlast with h | ⟨t, ht, h⟩
    · simp at h
    · exact ⟨t, ht, by simp [h]⟩
  simp only [translateFromCalibId, hmd]
  rw [scanLine_append_eq F.data d₁ d₂ hnl₁ hnl₂ hcap none, hlast]

/-- C10 witness: `CALIB_ID="ccdnum=1 ccdnum=2"` yields `"2"` (the last
occurrence), not `"1"` (the first). -/
theorem C10_witness :
    translateFromCalibId "ccdnum" mdDoubleCcdnum = .ok "2" ∧
    ("2" : String) ≠ "1" := by
  constructor
  · exact C10_last_occurrence_wins "ccdnum" "ccdnum=1 ".data "ccdnum=2".data
      "2".data mdDoubleCcdnum (by decide) (by decide) (by decide) (by decide)
      rfl
  · decide

end ObsDecam
